import Mathlib

/-!
Verification of the margined-perpetuals engine (contracts/margined_engine).

Shallow embedding conventions:
* `Uint128` is modelled as `ℕ` (the claims under study do not hinge on
  128-bit overflow; `checked_*` operations that can fail on underflow or
  division by zero are modelled with `Except`, or guarded by positivity
  hypotheses where noted).
* `margined_common::integer::Integer` (a sign-magnitude signed wrapper
  around `Uint128`, not included under `src/`) is modelled as `ℤ`; its
  division divides magnitudes and xors the signs, which is `integerDiv`
  below.
* Addresses are modelled as `ℕ`; collaborator (vAMM / oracle) queries are
  modelled as explicit function parameters, so "no query is issued" is
  expressed as the result being independent of (constant in) those
  parameters.
* Storage buckets are modelled as association lists / lookup functions.
-/

namespace Perp

/-- Division of `margined_common::integer::Integer`: the magnitudes (both
`Uint128`) are divided and the sign is the product of the signs. -/
def integerDiv (a b : ℤ) : ℤ :=
  a.sign * b.sign * ((a.natAbs / b.natAbs : ℕ) : ℤ)

/-- `margined_perp::margined_engine::Side`. -/
inductive Side
  | Buy
  | Sell
deriving DecidableEq, Repr

/-- `margined_perp::margined_vamm::Direction`. -/
inductive Direction
  | AddToAmm
  | RemoveFromAmm
deriving DecidableEq, Repr

/-- `margined_perp::margined_engine::PnlCalcOption`. -/
inductive PnlCalcOption
  | SpotPrice
  | Twap
  | Oracle
deriving DecidableEq, Repr

/-- `cosmwasm_std::Order`. -/
inductive OrderBy
  | Ascending
  | Descending
deriving DecidableEq, Repr

/-- `margined_perp::margined_engine::Position` (addresses as `ℕ`,
`Uint128` as `ℕ`, `Integer` as `ℤ`). -/
structure Position where
  position_id : ℕ
  vamm : ℕ
  pair : String
  trader : ℕ
  side : Side
  direction : Direction
  size : ℤ
  margin : ℕ
  notional : ℕ
  entry_price : ℕ
  take_profit : Option ℕ
  stop_loss : Option ℕ
  spread_fee : ℕ
  toll_fee : ℕ
  last_updated_premium_fraction : ℤ
  block_time : ℕ
  expire_time : ℕ
deriving DecidableEq, Repr

/-- `margined_perp::margined_engine::PositionUnrealizedPnlResponse`. -/
structure PositionUnrealizedPnlResponse where
  position_notional : ℕ
  unrealized_pnl : ℤ
deriving DecidableEq, Repr

/-- `margined_perp::margined_engine::RemainMarginResponse`. -/
structure RemainMarginResponse where
  funding_payment : ℤ
  margin : ℕ
  bad_debt : ℕ
  latest_premium_fraction : ℤ
deriving DecidableEq, Repr

/-- utils.rs `side_to_direction`. -/
def side_to_direction (side : Side) : Direction :=
  match side with
  | Side.Buy => Direction.AddToAmm
  | Side.Sell => Direction.RemoveFromAmm

/-- utils.rs `direction_to_side`. -/
def direction_to_side (direction : Direction) : Side :=
  match direction with
  | Direction.AddToAmm => Side.Buy
  | Direction.RemoveFromAmm => Side.Sell

/-- utils.rs `position_to_side`. -/
def position_to_side (size : ℤ) : Side :=
  if size > 0 then Side.Sell else Side.Buy

/-- query.rs `query_cumulative_premium_fraction`: last element of the
market's cumulative premium-fraction series, `0` if the series is empty. -/
def query_cumulative_premium_fraction (cumulative_premium_fractions : List ℤ) : ℤ :=
  match cumulative_premium_fractions.getLast? with
  | none => 0
  | some last => last

/-- The funding-payment computation inside utils.rs
`calc_remain_margin_with_funding_payment`:
`(latest_premium_fraction - position.last_updated_premium_fraction) * position.size / decimals`. -/
def funding_payment_of (cumulative_premium_fractions : List ℤ) (decimals : ℕ)
    (position : Position) : ℤ :=
  integerDiv ((query_cumulative_premium_fraction cumulative_premium_fractions
      - position.last_updated_premium_fraction) * position.size)
    (decimals : ℤ)

/-- utils.rs `calc_remain_margin_with_funding_payment`.  The engine
storage reads (`query_cumulative_premium_fraction`, `config.decimals`)
are passed as the series and `decimals` parameters. -/
def calc_remain_margin_with_funding_payment
    (cumulative_premium_fractions : List ℤ) (decimals : ℕ)
    (position : Position) (margin_delta : ℤ) : RemainMarginResponse :=
  let latest_premium_fraction := query_cumulative_premium_fraction cumulative_premium_fractions
  let funding_payment := funding_payment_of cumulative_premium_fractions decimals position
  let remaining_margin : ℤ := margin_delta - funding_payment + (position.margin : ℤ)
  if remaining_margin < 0 then
    { funding_payment := funding_payment
      margin := 0
      bad_debt := remaining_margin.natAbs
      latest_premium_fraction := latest_premium_fraction }
  else
    { funding_payment := funding_payment
      margin := remaining_margin.toNat
      bad_debt := 0
      latest_premium_fraction := latest_premium_fraction }

/-- The vAMM / oracle collaborator queries consumed by the PnL
calculator, as explicit functions. -/
structure Querier where
  output_twap : Direction → ℕ → ℕ
  output_amount : Direction → ℕ → ℕ
  underlying_price : ℕ

/-- utils.rs `get_position_notional_unrealized_pnl`. -/
def get_position_notional_unrealized_pnl (q : Querier) (decimals : ℕ)
    (position : Position) (calc_option : PnlCalcOption) : PositionUnrealizedPnlResponse :=
  if position.size = 0 then
    { position_notional := 0, unrealized_pnl := 0 }
  else
    let output_notional : ℕ :=
      match calc_option with
      | PnlCalcOption.Twap => q.output_twap position.direction position.size.natAbs
      | PnlCalcOption.SpotPrice => q.output_amount position.direction position.size.natAbs
      | PnlCalcOption.Oracle => q.underlying_price * position.size.natAbs / decimals
    let unrealized_pnl : ℤ :=
      if position.direction = Direction.AddToAmm then
        (output_notional : ℤ) - (position.notional : ℤ)
      else
        (position.notional : ℤ) - (output_notional : ℤ)
    { position_notional := output_notional, unrealized_pnl := unrealized_pnl }

/-- query.rs `query_margin_ratio`. -/
def query_margin_ratio (q : Querier) (cumulative_premium_fractions : List ℤ)
    (decimals : ℕ) (position : Position) : ℤ :=
  if position.size = 0 then 0
  else
    let pnl := get_position_notional_unrealized_pnl q decimals position PnlCalcOption.SpotPrice
    let remain_margin :=
      calc_remain_margin_with_funding_payment cumulative_premium_fractions decimals position
        pnl.unrealized_pnl
    integerDiv (((remain_margin.margin : ℤ) - (remain_margin.bad_debt : ℤ)) * (decimals : ℤ))
      (pnl.position_notional : ℤ)

/-- state.rs `append_cumulative_premium_fraction`: returns the updated
series together with the returned `latest_premium_fraction`. -/
def append_cumulative_premium_fraction (series : List ℤ) (premium_fraction : ℤ) :
    List ℤ × ℤ :=
  match series.getLast? with
  | none => (series ++ [premium_fraction], premium_fraction)
  | some current_premium_fraction =>
      (series ++ [premium_fraction + current_premium_fraction],
        premium_fraction + current_premium_fraction)

/-- utils.rs `calculate_tp_sl_spread` (the `checked_div` by `decimals`
is guarded by a positivity hypothesis at the use sites). -/
def calculate_tp_sl_spread (tp_sl_spread take_profit stop_loss decimals : ℕ) : ℕ × ℕ :=
  (take_profit * tp_sl_spread / decimals, stop_loss * tp_sl_spread / decimals)

/-- Rust `u128::abs_diff`. -/
def absDiff (a b : ℕ) : ℕ :=
  if b ≤ a then a - b else b - a

/-- utils.rs `check_tp_sl_price`. -/
def check_tp_sl_price (close_price take_profit stop_loss tp_spread sl_spread : ℕ)
    (side : Side) : String :=
  match side with
  | Side.Buy =>
      if (0 < take_profit && take_profit < close_price) || absDiff take_profit close_price ≤ tp_spread then
        "trigger_take_profit"
      else if close_price < stop_loss || (0 < stop_loss && absDiff close_price stop_loss ≤ sl_spread) then
        "trigger_stop_loss"
      else ""
  | Side.Sell =>
      if close_price < take_profit || (0 < take_profit && absDiff close_price take_profit ≤ tp_spread) then
        "trigger_take_profit"
      else if (0 < stop_loss && stop_loss < close_price) || absDiff stop_loss close_price ≤ sl_spread then
        "trigger_stop_loss"
      else ""

/-- A swap request issued to the vAMM collaborator: handle.rs `swap_input`
(`ExecuteMsg::SwapInput`) or `swap_output` (`ExecuteMsg::SwapOutput`). -/
inductive SwapMsg
  | swapInput (side : Side) (position_id : ℕ) (quote_asset_amount : ℕ)
      (base_asset_limit : ℕ) (can_go_over_fluctuation : Bool)
  | swapOutput (side : Side) (position_id : ℕ) (base_asset_amount : ℕ)
      (quote_asset_limit : ℕ)
deriving DecidableEq, Repr

/-- handle.rs `partial_liquidation` (the `output_amount` vAMM quote is an
explicit function parameter; `checked_mul`/`checked_div` are modelled on
`ℕ` — the branch under study does not depend on overflow). -/
def partial_liquidation (position : Position) (quote_asset_limit : ℕ)
    (decimals : ℕ) (partial_liquidation_ratio : ℕ)
    (output_amount : Direction → ℕ → ℕ) : SwapMsg :=
  let partial_position_size := position.size.natAbs * partial_liquidation_ratio / decimals
  let partial_asset_limit := quote_asset_limit * partial_liquidation_ratio / decimals
  let current_notional := output_amount position.direction partial_position_size
  if position.notional < current_notional then
    SwapMsg.swapInput (direction_to_side position.direction) position.position_id
      position.notional 0 true
  else
    SwapMsg.swapOutput (direction_to_side position.direction) position.position_id
      partial_position_size partial_asset_limit

/-- utils.rs `require_non_zero_input`. -/
def require_non_zero_input (input : ℕ) : Except String Unit :=
  if input = 0 then Except.error "Input must be non-zero" else Except.ok ()

/-- utils.rs `require_additional_margin`. -/
def require_additional_margin (margin_ratio : ℤ) (base_margin : ℕ) : Except String Unit :=
  if margin_ratio < (base_margin : ℤ) then Except.error "Position is undercollateralized"
  else Except.ok ()

/-- `Uint128::checked_div`. -/
def checkedDiv (a b : ℕ) : Except String ℕ :=
  if b = 0 then Except.error "Cannot divide by zero" else Except.ok (a / b)

/-- `Uint128::checked_sub`. -/
def checkedSub (a b : ℕ) : Except String ℕ :=
  if a < b then Except.error "Cannot subtract" else Except.ok (a - b)

/-- Modelled from the spec: `check_max_notional_size` (imported by
handle.rs from utils but not present under `src/`); the spec says an open
whose notional exceeds the configured `max_notional_size` cap fails with
a notional-size-exceeded error. -/
def check_max_notional_size (open_notional max_notional_size : ℕ) : Except String Unit :=
  if max_notional_size < open_notional then Except.error "Max notional size exceeded"
  else Except.ok ()

/-- Modelled from the spec: `check_min_leverage` (imported by handle.rs
from utils but not present under `src/`); the spec says opens enforce a
minimum-leverage trading limit. -/
def check_min_leverage (leverage min_leverage : ℕ) : Except String Unit :=
  if leverage < min_leverage then Except.error "Leverage is too low" else Except.ok ()

@[simp]
theorem except_throw_def {α : Type} (e : String) :
    (throw e : Except String α) = Except.error e := rfl

@[simp]
theorem except_pure_def {α : Type} (a : α) :
    (pure a : Except String α) = Except.ok a := rfl

@[simp]
theorem except_bind_error {α β : Type} (e : String) (f : α → Except String β) :
    ((Except.error e : Except String α) >>= f) = Except.error e := rfl

@[simp]
theorem except_bind_ok {α β : Type} (a : α) (f : α → Except String β) :
    ((Except.ok a : Except String α) >>= f) = f a := rfl

@[simp]
theorem except_map_error {α β : Type} (e : String) (g : α → β) :
    (g <$> (Except.error e : Except String α)) = Except.error e := rfl

@[simp]
theorem except_map_ok {α β : Type} (a : α) (g : α → β) :
    (g <$> (Except.ok a : Except String α)) = Except.ok (g a) := rfl

/-- The environment of an `open_position` call: engine/vAMM configuration
and the collaborator quote queries.  `pre_checks_ok` summarises the five
guard checks run before the numeric validation (price-diff limit,
trader whitelist, pause, vAMM registered-and-open, restriction mode):
each of them either passes or aborts the call with its own error. -/
structure OpenCtx where
  decimals : ℕ
  initial_margin_ratio : ℕ
  vamm_initial_margin_ratio : ℕ
  max_notional_size : ℕ
  min_leverage : ℕ
  pre_checks_ok : Bool
  calc_fee : ℕ → ℕ × ℕ
  input_price : Direction → ℕ → ℕ

/-- handle.rs `open_position`, from the guard checks down to the
computation of the pre-trade quoted entry price; returns that entry
price.  Follows the source order: guards; non-zero margin and leverage;
the `leverage < config.decimals` check; margin ratio versus the initial
margin ratios; notional and fee computation; net margin; recomputed
notional; trading limits; `input_price` quote. -/
def open_entry_price (ctx : OpenCtx) (side : Side) (margin_amount leverage : ℕ) :
    Except String ℕ := do
  if !ctx.pre_checks_ok then
    throw "pre-trade guard failed"
  let _ ← require_non_zero_input margin_amount
  let _ ← require_non_zero_input leverage
  if leverage < ctx.decimals then
    throw "Leverage must be greater than 1"
  let margin_ratio ← checkedDiv (ctx.decimals * ctx.decimals) leverage
  let _ ← require_additional_margin (margin_ratio : ℤ)
    (max ctx.initial_margin_ratio ctx.vamm_initial_margin_ratio)
  let first_notional ← checkedDiv (margin_amount * leverage) ctx.decimals
  let fees := ctx.calc_fee first_notional
  let after_spread ← checkedSub margin_amount fees.1
  let new_margin_amount ← checkedSub after_spread fees.2
  let _ ← require_non_zero_input new_margin_amount
  let open_notional ← checkedDiv (new_margin_amount * leverage) ctx.decimals
  let _ ← check_max_notional_size open_notional ctx.max_notional_size
  let _ ← check_min_leverage leverage ctx.min_leverage
  pure (ctx.input_price (side_to_direction side) open_notional)

/-- handle.rs `open_position`, TP/SL ordering validation against the
pre-trade quoted entry price (the `match side` block). -/
def validate_tp_sl (side : Side) (take_profit stop_loss : Option ℕ) (entry_price : ℕ) :
    Except String Unit := do
  match side with
  | Side.Buy =>
      match take_profit with
      | some tp => if tp ≤ entry_price then throw "TP price is too low" else pure ()
      | none => pure ()
      match stop_loss with
      | some sl => if entry_price < sl then throw "SL price is too high" else pure ()
      | none => pure ()
  | Side.Sell =>
      match take_profit with
      | some tp => if entry_price ≤ tp then throw "TP price is too high" else pure ()
      | none => pure ()
      match stop_loss with
      | some sl => if sl < entry_price then throw "SL price is too low" else pure ()
      | none => pure ()

/-- handle.rs `open_position`: the validation pipeline up to (and
including) the TP/SL ordering check; what follows in the source only
persists the pending swap descriptor and emits the swap submessage. -/
def open_position (ctx : OpenCtx) (side : Side) (margin_amount leverage : ℕ)
    (take_profit stop_loss : Option ℕ) : Except String Unit := do
  let entry_price ← open_entry_price ctx side margin_amount leverage
  validate_tp_sl side take_profit stop_loss entry_price

/-- handle.rs `internal_close_position`: issues the size-bounded
`SwapOutput` for the full position. -/
def internal_close_position (position : Position) (quote_asset_limit : ℕ) : SwapMsg :=
  SwapMsg.swapOutput (direction_to_side position.direction) position.position_id
    position.size.natAbs quote_asset_limit

/-- handle.rs `close_position`.  The position store is a lookup function;
`price_diff_ok`, `restriction_ok` and `over_fluctuation` stand for the
collaborator-dependent checks (`require_is_not_over_price_diff_limit`,
`require_not_restriction_mode`, `is_over_fluctuation_limit`), each placed
exactly where the source consults it; `pause` is the engine pause state
consumed by `require_not_paused`.  Mirrors the source order: position
lookup, ownership, price-diff guard, pause, non-zero size, restriction
mode, then the fluctuation-limit split. -/
def close_position (positions : ℕ → Option Position) (pause : Bool)
    (price_diff_ok restriction_ok over_fluctuation : Bool)
    (partial_liquidation_ratio decimals : ℕ) (trader : ℕ) (position_id : ℕ)
    (quote_amount_limit : ℕ) (output_amount : Direction → ℕ → ℕ) :
    Except String SwapMsg := do
  match positions position_id with
  | none => throw "Position not found"
  | some position =>
    if position.trader ≠ trader then
      throw "Unauthorized"
    if !price_diff_ok then
      throw "Over price diff limit"
    if pause then
      throw "Margin engine is paused"
    if position.size = 0 then
      throw "Position is zero"
    if !restriction_ok then
      throw "Only one action allowed"
    let base_direction :=
      if 0 < position.size then Direction.AddToAmm else Direction.RemoveFromAmm
    if over_fluctuation && partial_liquidation_ratio < decimals then
      let side := position_to_side position.size
      let partial_close_amount := position.size.natAbs * partial_liquidation_ratio / decimals
      let partial_close_notional := output_amount base_direction partial_close_amount
      pure (SwapMsg.swapInput side position.position_id partial_close_notional 0 true)
    else
      pure (internal_close_position position quote_amount_limit)

/-- handle.rs `deposit_margin`: pause check, non-zero amount, collateral
transfer (message emission only), position lookup, ownership check, then
`position.margin += amount` and store.  Returns the stored position. -/
def deposit_margin (positions : ℕ → Option Position) (pause : Bool) (trader : ℕ)
    (position_id amount : ℕ) : Except String Position := do
  if pause then
    throw "Margin engine is paused"
  let _ ← require_non_zero_input amount
  match positions position_id with
  | none => throw "Position not found"
  | some position =>
    if position.trader ≠ trader then
      throw "Unauthorized"
    pure { position with margin := position.margin + amount }

/-- state.rs pagination constant `MAX_LIMIT`. -/
def MAX_LIMIT : ℕ := 100

/-- state.rs pagination constant `DEFAULT_LIMIT`. -/
def DEFAULT_LIMIT : ℕ := 10

/-- Big-endian byte representation with a fixed width (`u64::to_be_bytes`
is `natToBeBytes 8`). -/
def natToBeBytes : ℕ → ℕ → List ℕ
  | 0, _ => []
  | n + 1, x => natToBeBytes n (x / 256) ++ [x % 256]

/-- `u64::to_be_bytes`. -/
def u64ToBe (id : ℕ) : List ℕ :=
  natToBeBytes 8 id

/-- The loop body of utils.rs `calc_range_start` on the reversed byte
vector: walking from the least-significant byte, each `255` becomes `0`
and the first other byte is incremented (nothing changes past it). -/
def incRev : List ℕ → List ℕ
  | [] => []
  | b :: rest => if b = 255 then 0 :: incRev rest else (b + 1) :: rest

/-- utils.rs `calc_range_start`: increment-with-carry over the big-endian
byte representation, used as the inclusive lower bound of ascending
scans. -/
def calc_range_start (start_after : Option (List ℕ)) : Option (List ℕ) :=
  start_after.map (fun input => (incRev input.reverse).reverse)

/-- Byte-wise lexicographic strict order on storage keys, the iteration
order of the host key-value store. -/
def byteLt : List ℕ → List ℕ → Bool
  | [], [] => false
  | [], _ :: _ => true
  | _ :: _, [] => false
  | a :: as, b :: bs => if a < b then true else if b < a then false else byteLt as bs

/-- Whether a key lies in a storage range: the lower bound (when given)
is inclusive and the upper bound (when given) is exclusive, as in the
host store's `range`. -/
def inRange (start stop : Option (List ℕ)) (key : List ℕ) : Bool :=
  (match start with
   | none => true
   | some s => !byteLt key s) &&
  (match stop with
   | none => true
   | some e => byteLt key e)

/-- The host store's `range` over a bucket whose entries are listed in
ascending key order: keep the keys inside the bounds, in ascending or
descending order. -/
def bucketRange (entries : List (List ℕ × Position)) (start stop : Option (List ℕ))
    (order_by : OrderBy) : List (List ℕ × Position) :=
  let filtered := entries.filter (fun e => inRange start stop e.1)
  match order_by with
  | OrderBy.Ascending => filtered
  | OrderBy.Descending => filtered.reverse

/-- state.rs `read_positions`: clamp the page size, turn `start_after`
into byte bounds (ascending: `calc_range_start` successor as inclusive
lower bound; otherwise: the key itself as exclusive upper bound,
defaulting to descending), scan, take the page, keep the values. -/
def read_positions (entries : List (List ℕ × Position)) (start_after : Option ℕ)
    (limit : Option ℕ) (order_by : Option OrderBy) : List Position :=
  let lim := min (limit.getD DEFAULT_LIMIT) MAX_LIMIT
  let sa := start_after.map u64ToBe
  let bounds :=
    match order_by with
    | some OrderBy.Ascending => (calc_range_start sa, (none : Option (List ℕ)), OrderBy.Ascending)
    | _ => ((none : Option (List ℕ)), sa, OrderBy.Descending)
  ((bucketRange entries bounds.1 bounds.2.1 bounds.2.2).take lim).map Prod.snd

/-! ## Concrete data used by witnesses and counterexamples -/

/-- A concrete long position used to instantiate theorems. -/
def longPosition : Position :=
  { position_id := 1
    vamm := 11
    pair := "ORAI/USDT"
    trader := 7
    side := Side.Buy
    direction := Direction.AddToAmm
    size := 3
    margin := 2
    notional := 10
    entry_price := 5
    take_profit := some 8
    stop_loss := some 4
    spread_fee := 0
    toll_fee := 0
    last_updated_premium_fraction := 0
    block_time := 0
    expire_time := 0 }

/-- A concrete closed (zero-size) position used to instantiate theorems. -/
def zeroSizePosition : Position :=
  { longPosition with size := 0, margin := 9 }

/-! ## C1: remaining margin never negative, clamped with bad debt -/

/-- C1: for every position and signed `margin_delta`,
`calc_remain_margin_with_funding_payment` clamps: with
`unclamped = margin_delta - funding_payment + position.margin`, a
negative `unclamped` yields `margin = 0` and `bad_debt = |unclamped|`,
and a non-negative one yields `margin = unclamped` and `bad_debt = 0`;
the returned `margin` is never negative. -/
theorem calc_remain_margin_clamps (cpf : List ℤ) (decimals : ℕ)
    (position : Position) (margin_delta : ℤ) (hd : 0 < decimals) :
    (margin_delta - funding_payment_of cpf decimals position + (position.margin : ℤ) < 0 →
      (calc_remain_margin_with_funding_payment cpf decimals position margin_delta).margin = 0 ∧
      ((calc_remain_margin_with_funding_payment cpf decimals position margin_delta).bad_debt : ℤ)
        = -(margin_delta - funding_payment_of cpf decimals position + (position.margin : ℤ))) ∧
    (0 ≤ margin_delta - funding_payment_of cpf decimals position + (position.margin : ℤ) →
      ((calc_remain_margin_with_funding_payment cpf decimals position margin_delta).margin : ℤ)
        = margin_delta - funding_payment_of cpf decimals position + (position.margin : ℤ) ∧
      (calc_remain_margin_with_funding_payment cpf decimals position margin_delta).bad_debt = 0) ∧
    0 ≤ ((calc_remain_margin_with_funding_payment cpf decimals position margin_delta).margin : ℤ) ∧
    (calc_remain_margin_with_funding_payment cpf decimals position margin_delta).funding_payment
      = funding_payment_of cpf decimals position := by
  simp only [calc_remain_margin_with_funding_payment]
  split
  · refine ⟨fun hneg => ⟨rfl, ?_⟩, fun hpos => absurd hpos (by omega), by positivity, rfl⟩
    dsimp only
    omega
  · refine ⟨fun hneg => absurd hneg (by omega), fun hpos => ⟨?_, rfl⟩, by positivity, rfl⟩
    dsimp only
    omega

/-- C1 witness: at a concrete position with margin 2, no funding owed and
`margin_delta = -5`, the unclamped value is `-3`, so the returned margin
is `0` and the bad debt is `3`. -/
theorem calc_remain_margin_clamps_witness :
    (calc_remain_margin_with_funding_payment [] 1 longPosition (-5)).margin = 0 ∧
    ((calc_remain_margin_with_funding_payment [] 1 longPosition (-5)).bad_debt : ℤ) = 3 := by
  have h := (calc_remain_margin_clamps [] 1 longPosition (-5) (by norm_num)).1 (by decide)
  exact ⟨h.1, by rw [h.2]; decide⟩

/-! ## C2: zero-size positions have zero notional, PnL and margin ratio -/

/-- C2: for every zero-size position, the unrealized-PnL computation
returns notional `0` and PnL `0`, and the margin-ratio computation
returns `0`; both results hold for every querier `q` (and premium series),
i.e. they are independent of the vAMM / oracle collaborators, so no
collaborator query is consulted. -/
theorem zero_size_pnl_and_margin_ratio (q : Querier) (cpf : List ℤ) (decimals : ℕ)
    (position : Position) (calc_option : PnlCalcOption) (hsize : position.size = 0) :
    get_position_notional_unrealized_pnl q decimals position calc_option
      = { position_notional := 0, unrealized_pnl := 0 } ∧
    query_margin_ratio q cpf decimals position = 0 := by
  constructor
  · simp [get_position_notional_unrealized_pnl, hsize]
  · simp [query_margin_ratio, hsize]

/-- C2 witness: a concrete zero-size position has zero notional, PnL and
margin ratio under an arbitrary concrete querier. -/
theorem zero_size_pnl_and_margin_ratio_witness :
    get_position_notional_unrealized_pnl
        { output_twap := fun _ n => 2 * n, output_amount := fun _ n => 3 * n,
          underlying_price := 5 } 1 zeroSizePosition PnlCalcOption.SpotPrice
      = { position_notional := 0, unrealized_pnl := 0 } ∧
    query_margin_ratio
        { output_twap := fun _ n => 2 * n, output_amount := fun _ n => 3 * n,
          underlying_price := 5 } [4] 1 zeroSizePosition = 0 :=
  zero_size_pnl_and_margin_ratio _ [4] 1 zeroSizePosition PnlCalcOption.SpotPrice (by decide)

/-! ## C3: partial-liquidation branch selection -/

/-- C3: in `partial_liquidation`, when the quoted notional at the partial
size exceeds the position's stored notional the engine issues the
notional-bounded `SwapInput` (bounded by `position.notional`); otherwise
it issues the size-bounded `SwapOutput`; the size-bounded path is never
chosen when the quoted notional exceeds the stored notional. -/
theorem partial_liquidation_branch (position : Position)
    (quote_asset_limit decimals partial_liquidation_ratio : ℕ)
    (output_amount : Direction → ℕ → ℕ) :
    (position.notional < output_amount position.direction
        (position.size.natAbs * partial_liquidation_ratio / decimals) →
      partial_liquidation position quote_asset_limit decimals partial_liquidation_ratio
          output_amount
        = SwapMsg.swapInput (direction_to_side position.direction) position.position_id
            position.notional 0 true) ∧
    (output_amount position.direction
        (position.size.natAbs * partial_liquidation_ratio / decimals) ≤ position.notional →
      partial_liquidation position quote_asset_limit decimals partial_liquidation_ratio
          output_amount
        = SwapMsg.swapOutput (direction_to_side position.direction) position.position_id
            (position.size.natAbs * partial_liquidation_ratio / decimals)
            (quote_asset_limit * partial_liquidation_ratio / decimals)) ∧
    (position.notional < output_amount position.direction
        (position.size.natAbs * partial_liquidation_ratio / decimals) →
      ∀ s pid b l,
        partial_liquidation position quote_asset_limit decimals partial_liquidation_ratio
          output_amount ≠ SwapMsg.swapOutput s pid b l) := by
  refine ⟨fun h => ?_, fun h => ?_, fun h s pid b l => ?_⟩
  · simp [partial_liquidation, h]
  · simp [partial_liquidation, Nat.not_lt.mpr h]
  · simp [partial_liquidation, h]

/-- C3 witness: with a quote of 20 against a stored notional of 10 the
notional-bounded swap-input is issued; with a quote of 4 the size-bounded
swap-output for the partial size is issued. -/
theorem partial_liquidation_branch_witness :
    partial_liquidation longPosition 6 2 1 (fun _ _ => 20)
      = SwapMsg.swapInput Side.Buy 1 10 0 true ∧
    partial_liquidation longPosition 6 2 1 (fun _ _ => 4)
      = SwapMsg.swapOutput Side.Buy 1 1 3 :=
  ⟨(partial_liquidation_branch longPosition 6 2 1 (fun _ _ => 20)).1 (by decide),
   (partial_liquidation_branch longPosition 6 2 1 (fun _ _ => 4)).2.1 (by decide)⟩

/-! ## C4: funding accumulation is associative in one step -/

/-- C4: appending premium fractions `p1` then `p2` to a market funding
series leaves the same final cumulative value (both as the returned
latest value and as the last element of the series) as appending
`p1 + p2` in one step; the new cumulative is the premium fraction itself
on an empty series and the premium fraction plus the previous last
element otherwise. -/
theorem append_cumulative_premium_fraction_spec (series : List ℤ) (p1 p2 : ℤ) :
    ((append_cumulative_premium_fraction
        (append_cumulative_premium_fraction series p1).1 p2).1.getLast?
      = (append_cumulative_premium_fraction series (p1 + p2)).1.getLast?) ∧
    ((append_cumulative_premium_fraction
        (append_cumulative_premium_fraction series p1).1 p2).2
      = (append_cumulative_premium_fraction series (p1 + p2)).2) ∧
    (series = [] → append_cumulative_premium_fraction series p1 = ([p1], p1)) ∧
    (∀ last, series.getLast? = some last →
      append_cumulative_premium_fraction series p1 = (series ++ [p1 + last], p1 + last)) := by
  rcases h : series.getLast? with - | a
  · have hnil : series = [] := List.getLast?_eq_none_iff.mp h
    subst hnil
    refine ⟨?_, ?_, fun _ => rfl, fun last hlast => by simp at hlast⟩
    · simp [append_cumulative_premium_fraction]
      ring_nf
    · simp [append_cumulative_premium_fraction]
      ring
  · refine ⟨?_, ?_, ?_, ?_⟩
    · simp [append_cumulative_premium_fraction, h, List.getLast?_concat]
      ring_nf
    · simp [append_cumulative_premium_fraction, h, List.getLast?_concat]
      ring
    · intro hnil
      simp [hnil] at h
    · intro last hlast
      have ha : a = last := Option.some.inj hlast
      subst ha
      simp [append_cumulative_premium_fraction, h]

/-- C4 witness: on the concrete series `[4]`, appending `2` then `3`
yields final cumulative `9`, the same as appending `5` in one step. -/
theorem append_cumulative_premium_fraction_spec_witness :
    (append_cumulative_premium_fraction
        (append_cumulative_premium_fraction [(4 : ℤ)] 2).1 3).1.getLast? = some 9 ∧
    (append_cumulative_premium_fraction [(4 : ℤ)] (2 + 3)).2 = 9 ∧
    append_cumulative_premium_fraction [(4 : ℤ)] 2 = ([4, 6], 6) := by
  have h := append_cumulative_premium_fraction_spec [(4 : ℤ)] 2 3
  refine ⟨?_, by decide, h.2.2.2 4 rfl⟩
  rw [h.1]
  decide

/-! ## C8: close on a nonexistent position is not-found, not paused -/

/-- C8: `close_position` on a position identifier absent from the store
fails with the not-found error for every pause state (in particular while
paused), because the store lookup precedes the pause check. -/
theorem close_position_not_found_before_pause (positions : ℕ → Option Position)
    (pause price_diff_ok restriction_ok over_fluctuation : Bool)
    (partial_liquidation_ratio decimals trader position_id quote_amount_limit : ℕ)
    (output_amount : Direction → ℕ → ℕ)
    (hnone : positions position_id = none) :
    close_position positions pause price_diff_ok restriction_ok over_fluctuation
        partial_liquidation_ratio decimals trader position_id quote_amount_limit output_amount
      = Except.error "Position not found" ∧
    close_position positions pause price_diff_ok restriction_ok over_fluctuation
        partial_liquidation_ratio decimals trader position_id quote_amount_limit output_amount
      ≠ Except.error "Margin engine is paused" := by
  have h1 : close_position positions pause price_diff_ok restriction_ok over_fluctuation
      partial_liquidation_ratio decimals trader position_id quote_amount_limit output_amount
      = Except.error "Position not found" := by
    unfold close_position
    rw [hnone]
    rfl
  exact ⟨h1, by rw [h1]; simp⟩


/-- C8 witness: on the empty store and a paused engine, closing position
`1` reports the not-found error rather than the paused error. -/
theorem close_position_not_found_before_pause_witness :
    close_position (fun _ => none) true true true false 0 1 7 1 0 (fun _ _ => 0)
      = Except.error "Position not found" ∧
    close_position (fun _ => none) true true true false 0 1 7 1 0 (fun _ _ => 0)
      ≠ Except.error "Margin engine is paused" :=
  close_position_not_found_before_pause (fun _ => none) true true true false 0 1 7 1 0
    (fun _ _ => 0) rfl

/-! ## C9: deposit_margin only adds to the margin field -/

/-- C9: a successful `deposit_margin` by the owner increases exactly the
position's `margin` field by the deposited amount and leaves every other
field — in particular `last_updated_premium_fraction` — unchanged; no
funding payment is applied. -/
theorem deposit_margin_updates_only_margin (positions : ℕ → Option Position) (trader : ℕ)
    (position_id amount : ℕ) (position : Position)
    (hpos : positions position_id = some position) (htr : position.trader = trader)
    (hamt : amount ≠ 0) :
    ∃ stored, deposit_margin positions false trader position_id amount = Except.ok stored ∧
      stored.margin = position.margin + amount ∧
      stored.last_updated_premium_fraction = position.last_updated_premium_fraction ∧
      stored.position_id = position.position_id ∧
      stored.vamm = position.vamm ∧
      stored.pair = position.pair ∧
      stored.trader = position.trader ∧
      stored.side = position.side ∧
      stored.direction = position.direction ∧
      stored.size = position.size ∧
      stored.notional = position.notional ∧
      stored.entry_price = position.entry_price ∧
      stored.take_profit = position.take_profit ∧
      stored.stop_loss = position.stop_loss ∧
      stored.spread_fee = position.spread_fee ∧
      stored.toll_fee = position.toll_fee ∧
      stored.block_time = position.block_time ∧
      stored.expire_time = position.expire_time := by
  refine ⟨{ position with margin := position.margin + amount }, ?_, rfl, rfl, rfl, rfl, rfl,
    rfl, rfl, rfl, rfl, rfl, rfl, rfl, rfl, rfl, rfl, rfl, rfl⟩
  simp [deposit_margin, require_non_zero_input, hpos, htr, hamt]

/-- C9 witness: depositing 5 into the concrete position yields margin 7
with every other field, including the funding snapshot, unchanged. -/
theorem deposit_margin_updates_only_margin_witness :
    ∃ stored,
      deposit_margin (fun i => if i = 1 then some longPosition else none) false 7 1 5
        = Except.ok stored ∧
      stored.margin = 7 ∧
      stored.last_updated_premium_fraction = longPosition.last_updated_premium_fraction := by
  obtain ⟨stored, hrun, hm, hl, -⟩ :=
    deposit_margin_updates_only_margin (fun i => if i = 1 then some longPosition else none) 7 1 5
      longPosition (by decide) rfl (by decide)
  exact ⟨stored, hrun, hm, hl⟩

/-! ## C10: unset TP/SL (zero sentinel) never triggers -/

/-- C10: for every positive close price and either side, with
`take_profit = 0` and `stop_loss = 0` (the unset sentinel) and the
spreads obtained from them by `calculate_tp_sl_spread` (hence both `0`),
`check_tp_sl_price` returns the empty string: neither trigger fires. -/
theorem check_tp_sl_price_unset (close_price tp_sl_spread decimals : ℕ) (side : Side)
    (hcp : 0 < close_price) (hd : 0 < decimals) :
    check_tp_sl_price close_price 0 0
      (calculate_tp_sl_spread tp_sl_spread 0 0 decimals).1
      (calculate_tp_sl_spread tp_sl_spread 0 0 decimals).2 side = "" := by
  have h1 : (calculate_tp_sl_spread tp_sl_spread 0 0 decimals).1 = 0 := by
    simp [calculate_tp_sl_spread]
  have h2 : (calculate_tp_sl_spread tp_sl_spread 0 0 decimals).2 = 0 := by
    simp [calculate_tp_sl_spread]
  rw [h1, h2]
  cases side <;>
    simp [check_tp_sl_price, absDiff] <;>
    omega

/-- C10 witness: at close price 17 with zero TP/SL on both sides, no
trigger fires. -/
theorem check_tp_sl_price_unset_witness :
    check_tp_sl_price 17 0 0 (calculate_tp_sl_spread 3 0 0 2).1
        (calculate_tp_sl_spread 3 0 0 2).2 Side.Buy = "" ∧
    check_tp_sl_price 17 0 0 (calculate_tp_sl_spread 3 0 0 2).1
        (calculate_tp_sl_spread 3 0 0 2).2 Side.Sell = "" :=
  ⟨check_tp_sl_price_unset 17 3 2 Side.Buy (by decide) (by decide),
   check_tp_sl_price_unset 17 3 2 Side.Sell (by decide) (by decide)⟩

/-! ## C5: opening with leverage below 1x always fails -/

/-- A concrete open-position environment with six-significant-digit
style decimals scaled down to 10, zero fees and a constant entry quote. -/
def feelessOpenCtx : OpenCtx :=
  { decimals := 10
    initial_margin_ratio := 0
    vamm_initial_margin_ratio := 0
    max_notional_size := 1000000
    min_leverage := 0
    pre_checks_ok := true
    calc_fee := fun _ => (0, 0)
    input_price := fun _ _ => 50 }

/-- C5 counterexample: with `margin_amount = 0` and `leverage = 5` below
`decimals = 10`, the open fails — but with the non-zero-input error
checked earlier in the pipeline, not the leverage-too-low error the
claim names. -/
theorem open_position_low_leverage_counterexample :
    5 < feelessOpenCtx.decimals ∧
    open_position feelessOpenCtx Side.Buy 0 5 none none
      = Except.error "Input must be non-zero" ∧
    (Except.error "Input must be non-zero" : Except String Unit)
      ≠ Except.error "Leverage must be greater than 1" := by
  refine ⟨by decide, rfl, by simp⟩

/-- C5 (amended): every `open_position` call with
`leverage < config.decimals` fails; moreover, whenever the preceding
checks pass — the pre-trade guards succeed and `margin_amount` and
`leverage` are non-zero — the failure is exactly the leverage-too-low
error. -/
theorem open_position_low_leverage_fails (ctx : OpenCtx) (side : Side)
    (margin_amount leverage : ℕ) (take_profit stop_loss : Option ℕ)
    (hlev : leverage < ctx.decimals) :
    (∃ e, open_position ctx side margin_amount leverage take_profit stop_loss
      = Except.error e) ∧
    (ctx.pre_checks_ok = true → margin_amount ≠ 0 → leverage ≠ 0 →
      open_position ctx side margin_amount leverage take_profit stop_loss
        = Except.error "Leverage must be greater than 1") := by
  constructor
  · by_cases hpre : ctx.pre_checks_ok
    · by_cases hm : margin_amount = 0
      · exact ⟨"Input must be non-zero",
          by simp [open_position, open_entry_price, require_non_zero_input, hpre, hm]⟩
      · by_cases hl : leverage = 0
        · exact ⟨"Input must be non-zero",
            by simp [open_position, open_entry_price, require_non_zero_input, hpre, hm, hl]⟩
        · exact ⟨"Leverage must be greater than 1",
            by simp [open_position, open_entry_price, require_non_zero_input, hpre, hm, hl, hlev]⟩
    · exact ⟨"pre-trade guard failed",
        by simp [open_position, open_entry_price, hpre]⟩
  · intro hpre hm hl
    simp [open_position, open_entry_price, require_non_zero_input, hpre, hm, hl, hlev]

/-- C5 witness: with non-zero margin 100 and leverage 5 below
decimals 10 and all guards passing, the open fails with exactly the
leverage-too-low error. -/
theorem open_position_low_leverage_fails_witness :
    open_position feelessOpenCtx Side.Buy 100 5 none none
      = Except.error "Leverage must be greater than 1" :=
  (open_position_low_leverage_fails feelessOpenCtx Side.Buy 100 5 none none
    (by decide)).2 rfl (by decide) (by decide)

/-! ## C6: TP/SL ordering validation at open -/

/-- C6 counterexample: against the quoted entry price 50, a Buy open
with `stop_loss = 50` (equal to the entry price) is accepted, refuting
the claim that a Buy with `stop_loss >= entry_price` fails; the Sell
side equally accepts `stop_loss =` entry price. -/
theorem open_position_sl_equal_entry_accepted :
    open_entry_price feelessOpenCtx Side.Buy 100 20 = Except.ok 50 ∧
    open_position feelessOpenCtx Side.Buy 100 20 (some 60) (some 50) = Except.ok () ∧
    open_position feelessOpenCtx Side.Sell 100 20 (some 40) (some 50) = Except.ok () := by
  exact ⟨rfl, rfl, rfl⟩

/-- C6 (amended): validated against the pre-trade quoted entry price, a
Buy open with `take_profit <= entry` fails, a Sell open with
`take_profit >= entry` fails, a Buy open with `stop_loss > entry`
(strictly above; equality is accepted) fails, and a Sell open with
`stop_loss < entry` (strictly below; equality is accepted) fails. -/
theorem open_position_tp_sl_ordering (ctx : OpenCtx) (side : Side)
    (margin_amount leverage : ℕ) (take_profit stop_loss : Option ℕ) (entry : ℕ)
    (h : open_entry_price ctx side margin_amount leverage = Except.ok entry) :
    (side = Side.Buy → ∀ tp, take_profit = some tp → tp ≤ entry →
      open_position ctx side margin_amount leverage take_profit stop_loss
        = Except.error "TP price is too low") ∧
    (side = Side.Sell → ∀ tp, take_profit = some tp → entry ≤ tp →
      open_position ctx side margin_amount leverage take_profit stop_loss
        = Except.error "TP price is too high") ∧
    (side = Side.Buy → (∀ tp, take_profit = some tp → entry < tp) →
      ∀ sl, stop_loss = some sl → entry < sl →
      open_position ctx side margin_amount leverage take_profit stop_loss
        = Except.error "SL price is too high") ∧
    (side = Side.Sell → (∀ tp, take_profit = some tp → tp < entry) →
      ∀ sl, stop_loss = some sl → sl < entry →
      open_position ctx side margin_amount leverage take_profit stop_loss
        = Except.error "SL price is too low") := by
  have hop : open_position ctx side margin_amount leverage take_profit stop_loss
      = validate_tp_sl side take_profit stop_loss entry := by
    simp [open_position, h]
  refine ⟨?_, ?_, ?_, ?_⟩
  · rintro rfl tp rfl htp
    rw [hop]
    simp [validate_tp_sl, htp]
  · rintro rfl tp rfl htp
    rw [hop]
    simp [validate_tp_sl, htp]
  · rintro rfl htp sl rfl hsl
    rw [hop]
    rcases hcase : take_profit with - | tp
    · simp [validate_tp_sl, hsl]
    · have := htp tp hcase
      subst hcase
      simp [validate_tp_sl, Nat.not_le.mpr this, hsl]
  · rintro rfl htp sl rfl hsl
    rw [hop]
    rcases hcase : take_profit with - | tp
    · simp [validate_tp_sl, hsl]
    · have := htp tp hcase
      subst hcase
      simp [validate_tp_sl, Nat.not_le.mpr this, hsl]

/-- C6 witness: against quoted entry 50, a Buy open with TP 50 fails as
too low, and a Sell open with passing TP 40 and SL 30 fails as SL too
low. -/
theorem open_position_tp_sl_ordering_witness :
    open_position feelessOpenCtx Side.Buy 100 20 (some 50) none
      = Except.error "TP price is too low" ∧
    open_position feelessOpenCtx Side.Sell 100 20 (some 40) (some 30)
      = Except.error "SL price is too low" :=
  ⟨(open_position_tp_sl_ordering feelessOpenCtx Side.Buy 100 20 (some 50) none 50
      rfl).1 rfl 50 rfl (by decide),
   (open_position_tp_sl_ordering feelessOpenCtx Side.Sell 100 20 (some 40) (some 30) 50
      rfl).2.2.2 rfl (fun tp htp => by cases htp; decide) 30 rfl (by decide)⟩

/-! ## C7: pagination — byte-key lemmas -/

theorem natToBeBytes_length : ∀ (n x : ℕ), (natToBeBytes n x).length = n
  | 0, _ => rfl
  | n + 1, x => by simp [natToBeBytes, natToBeBytes_length n]

theorem natToBeBytes_inj : ∀ (n x y : ℕ), x < 256 ^ n → y < 256 ^ n →
    natToBeBytes n x = natToBeBytes n y → x = y
  | 0, x, y, hx, hy, _ => by
      simp only [pow_zero, Nat.lt_one_iff] at hx hy
      omega
  | n + 1, x, y, hx, hy, h => by
      simp only [natToBeBytes] at h
      obtain ⟨h1, h2⟩ := List.append_inj h
        ((natToBeBytes_length n (x / 256)).trans (natToBeBytes_length n (y / 256)).symm)
      have hxd : x / 256 < 256 ^ n := by
        rw [Nat.div_lt_iff_lt_mul (by norm_num)]
        rw [pow_succ] at hx
        exact hx
      have hyd : y / 256 < 256 ^ n := by
        rw [Nat.div_lt_iff_lt_mul (by norm_num)]
        rw [pow_succ] at hy
        exact hy
      have hdiv : x / 256 = y / 256 := natToBeBytes_inj n (x / 256) (y / 256) hxd hyd h1
      have hmod : x % 256 = y % 256 := by simpa using h2
      omega

theorem byteLt_append_last : ∀ (A B : List ℕ) (a b : ℕ), A.length = B.length →
    byteLt (A ++ [a]) (B ++ [b]) = (byteLt A B || (decide (A = B) && decide (a < b)))
  | [], [], a, b, _ => by
      by_cases hab : a < b <;> simp [byteLt, hab]
  | [], _ :: _, _, _, h => by simp at h
  | _ :: _, [], _, _, h => by simp at h
  | x :: A, y :: B, a, b, h => by
      simp only [List.cons_append, byteLt]
      by_cases hxy : x < y
      · simp [byteLt, hxy]
      · by_cases hyx : y < x
        · simp [byteLt, hxy, hyx, Nat.ne_of_gt hyx]
        · have hx : x = y := le_antisymm (Nat.not_lt.mp hyx) (Nat.not_lt.mp hxy)
          subst hx
          simp only [hxy, hyx, if_false, List.append_eq]
          rw [byteLt_append_last A B a b (by simpa using h)]
          have hiff : (x :: A = x :: B) ↔ (A = B) := by simp
          rw [decide_eq_decide.mpr hiff]

theorem byteLt_natToBeBytes : ∀ (n x y : ℕ), x < 256 ^ n → y < 256 ^ n →
    byteLt (natToBeBytes n x) (natToBeBytes n y) = decide (x < y)
  | 0, x, y, hx, hy => by
      simp only [pow_zero, Nat.lt_one_iff] at hx hy
      subst hx
      subst hy
      simp [natToBeBytes, byteLt]
  | n + 1, x, y, hx, hy => by
      have hxd : x / 256 < 256 ^ n := by
        rw [Nat.div_lt_iff_lt_mul (by norm_num)]
        rw [pow_succ] at hx
        exact hx
      have hyd : y / 256 < 256 ^ n := by
        rw [Nat.div_lt_iff_lt_mul (by norm_num)]
        rw [pow_succ] at hy
        exact hy
      simp only [natToBeBytes]
      rw [byteLt_append_last _ _ _ _
        ((natToBeBytes_length n (x / 256)).trans (natToBeBytes_length n (y / 256)).symm)]
      rw [byteLt_natToBeBytes n (x / 256) (y / 256) hxd hyd]
      by_cases h2 : x / 256 = y / 256
      · rw [h2, decide_eq_true (rfl : natToBeBytes n (y / 256) = natToBeBytes n (y / 256))]
        rw [decide_eq_false (Nat.lt_irrefl (y / 256))]
        simp only [Bool.true_and, Bool.false_or]
        by_cases h3 : x % 256 < y % 256 <;> simp [h3] <;> omega
      · have hne : natToBeBytes n (x / 256) ≠ natToBeBytes n (y / 256) :=
          fun hh => h2 (natToBeBytes_inj n (x / 256) (y / 256) hxd hyd hh)
        rw [decide_eq_false hne]
        simp only [Bool.false_and, Bool.or_false]
        by_cases h1 : x / 256 < y / 256 <;> simp [h1] <;> omega

theorem incRev_natToBeBytes : ∀ (n x : ℕ), x + 1 < 256 ^ n →
    (incRev (natToBeBytes n x).reverse).reverse = natToBeBytes n (x + 1)
  | 0, x, h => by
      simp only [pow_zero] at h
      omega
  | n + 1, x, h => by
      have hrev : (natToBeBytes (n + 1) x).reverse
          = x % 256 :: (natToBeBytes n (x / 256)).reverse := by
        simp [natToBeBytes]
      rw [hrev]
      by_cases hr : x % 256 = 255
      · have hdiv : x / 256 + 1 < 256 ^ n := by
          rw [pow_succ] at h
          omega
        have e1 : (x + 1) / 256 = x / 256 + 1 := by omega
        have e2 : (x + 1) % 256 = 0 := by omega
        rw [hr]
        rw [show incRev (255 :: (natToBeBytes n (x / 256)).reverse)
            = 0 :: incRev (natToBeBytes n (x / 256)).reverse from by simp [incRev]]
        rw [List.reverse_cons, incRev_natToBeBytes n (x / 256) hdiv]
        simp [natToBeBytes, e1, e2]
      · have e1 : (x + 1) / 256 = x / 256 := by omega
        have e2 : (x + 1) % 256 = x % 256 + 1 := by omega
        rw [show incRev (x % 256 :: (natToBeBytes n (x / 256)).reverse)
            = (x % 256 + 1) :: (natToBeBytes n (x / 256)).reverse from by simp [incRev, hr]]
        rw [List.reverse_cons, List.reverse_reverse]
        simp [natToBeBytes, e1, e2]

theorem calc_range_start_u64 (a : ℕ) (h : a + 1 < 2 ^ 64) :
    calc_range_start (some (u64ToBe a)) = some (u64ToBe (a + 1)) := by
  have h8 : a + 1 < 256 ^ 8 := by
    have : (256 : ℕ) ^ 8 = 2 ^ 64 := by norm_num
    omega
  have hmap : calc_range_start (some (u64ToBe a))
      = some ((incRev (natToBeBytes 8 a).reverse).reverse) := rfl
  rw [hmap, incRev_natToBeBytes 8 a h8]
  rfl

theorem take_map_snd (ids : List (ℕ × Position)) (n : ℕ) :
    ((ids.map (fun i => (u64ToBe i.1, i.2))).take n).map Prod.snd
      = (ids.map Prod.snd).take n := by
  rw [← List.map_take, List.map_map, ← List.map_take]
  exact List.map_congr_left (fun i _ => rfl)

theorem filter_map_enc (ids : List (ℕ × Position)) (p : List ℕ → Bool) :
    (ids.map (fun i => (u64ToBe i.1, i.2))).filter (fun e => p e.1)
      = (ids.filter (fun i => p (u64ToBe i.1))).map (fun i => (u64ToBe i.1, i.2)) := by
  rw [List.filter_map]
  rfl

/-- C7 counterexample, exhibiting both defects of the claim as stated.
(i) On a store holding one position, requesting `limit = 0` yields the
empty page while omitting the limit yields the (default-sized) page
containing the position — so `limit = 0` does not behave like the
default page size 10.  (ii) At the maximum u64 key the
increment-with-carry successor wraps `0xFF..FF` to `0x00..00`, so the
ascending scan with `start_after = 2^64 - 1` fails to exclude the
`start_after` key itself: the position stored at exactly that key is
returned, where the claimed exclusion would return the empty page. -/
theorem read_positions_limit_zero_and_wrap_counterexample :
    read_positions [(u64ToBe 1, longPosition)] none (some 0) (some OrderBy.Ascending) = [] ∧
    read_positions [(u64ToBe 1, longPosition)] none none (some OrderBy.Ascending)
      = [longPosition] ∧
    calc_range_start (some (u64ToBe (2 ^ 64 - 1))) = some (u64ToBe 0) ∧
    read_positions [(u64ToBe (2 ^ 64 - 1), longPosition)] (some (2 ^ 64 - 1)) none
        (some OrderBy.Ascending) = [longPosition] ∧
    ([] : List Position) ≠ [longPosition] := by
  exact ⟨rfl, rfl, rfl, rfl, by simp⟩

/-- C7 (amended): for every position store keyed by `u64` big-endian
ids, an omitted limit defaults the page size to 10 and `limit > 100`
clamps it to 100, while `limit = 0` yields an empty page (not the
default size); an ascending scan uses the increment-with-carry successor
of `start_after` as inclusive lower bound and therefore returns exactly
the positions with ids strictly greater than `start_after` (which
requires `start_after + 1` not to overflow the 8-byte key); a descending
scan uses `start_after` directly as an exclusive upper bound, returning
exactly the ids strictly below it, in reverse order. -/
theorem read_positions_pagination (ids : List (ℕ × Position)) (a q : ℕ)
    (hids : ∀ i ∈ ids, i.1 < 2 ^ 64) (ha : a + 1 < 2 ^ 64) (hq : 100 < q) :
    read_positions (ids.map (fun i => (u64ToBe i.1, i.2))) none none (some OrderBy.Ascending)
      = (ids.map Prod.snd).take 10 ∧
    read_positions (ids.map (fun i => (u64ToBe i.1, i.2))) none (some q)
        (some OrderBy.Ascending)
      = (ids.map Prod.snd).take 100 ∧
    read_positions (ids.map (fun i => (u64ToBe i.1, i.2))) none (some 0)
        (some OrderBy.Ascending) = [] ∧
    read_positions (ids.map (fun i => (u64ToBe i.1, i.2))) (some a) none
        (some OrderBy.Ascending)
      = ((ids.filter (fun i => decide (a < i.1))).map Prod.snd).take 10 ∧
    read_positions (ids.map (fun i => (u64ToBe i.1, i.2))) (some a) none
        (some OrderBy.Descending)
      = (((ids.filter (fun i => decide (i.1 < a))).map Prod.snd).reverse).take 10 := by
  have h256 : (256 : ℕ) ^ 8 = 2 ^ 64 := by norm_num
  refine ⟨?_, ?_, ?_, ?_, ?_⟩
  · show (((ids.map (fun i => (u64ToBe i.1, i.2))).filter (fun _ => true)).take 10).map
        Prod.snd = (ids.map Prod.snd).take 10
    rw [List.filter_true]
    exact take_map_snd ids 10
  · show (((ids.map (fun i => (u64ToBe i.1, i.2))).filter (fun _ => true)).take
        (min q 100)).map Prod.snd = (ids.map Prod.snd).take 100
    rw [show min q 100 = 100 from by omega, List.filter_true]
    exact take_map_snd ids 100
  · rfl
  · have hcrs : calc_range_start (some (u64ToBe a)) = some (u64ToBe (a + 1)) :=
      calc_range_start_u64 a ha
    show (((ids.map (fun i => (u64ToBe i.1, i.2))).filter
        (fun e => inRange (calc_range_start (some (u64ToBe a))) none e.1)).take 10).map
        Prod.snd = ((ids.filter (fun i => decide (a < i.1))).map Prod.snd).take 10
    rw [hcrs]
    rw [filter_map_enc ids (fun k => inRange (some (u64ToBe (a + 1))) none k)]
    have hcong : ∀ i ∈ ids,
        inRange (some (u64ToBe (a + 1))) none (u64ToBe i.1) = decide (a < i.1) := by
      intro i hi
      have hi8 : i.1 < 256 ^ 8 := by
        rw [h256]
        exact hids i hi
      have ha8 : a + 1 < 256 ^ 8 := by
        rw [h256]
        exact ha
      show (!byteLt (u64ToBe i.1) (u64ToBe (a + 1)) && true) = decide (a < i.1)
      rw [Bool.and_true,
        show byteLt (u64ToBe i.1) (u64ToBe (a + 1)) = decide (i.1 < a + 1) from
          byteLt_natToBeBytes 8 i.1 (a + 1) hi8 ha8]
      by_cases hlt : i.1 < a + 1 <;> by_cases hgt : a < i.1 <;> simp [hlt, hgt] <;> omega
    rw [List.filter_congr hcong]
    exact take_map_snd (ids.filter fun i => decide (a < i.1)) 10
  · show ((((ids.map (fun i => (u64ToBe i.1, i.2))).filter
        (fun e => inRange none (some (u64ToBe a)) e.1)).reverse).take 10).map Prod.snd
      = (((ids.filter (fun i => decide (i.1 < a))).map Prod.snd).reverse).take 10
    rw [filter_map_enc ids (fun k => inRange none (some (u64ToBe a)) k)]
    have hcong : ∀ i ∈ ids,
        inRange none (some (u64ToBe a)) (u64ToBe i.1) = decide (i.1 < a) := by
      intro i hi
      have hi8 : i.1 < 256 ^ 8 := by
        rw [h256]
        exact hids i hi
      have ha8 : a < 256 ^ 8 := by
        rw [h256]
        omega
      show (true && byteLt (u64ToBe i.1) (u64ToBe a)) = decide (i.1 < a)
      rw [Bool.true_and]
      exact byteLt_natToBeBytes 8 i.1 a hi8 ha8
    rw [List.filter_congr hcong, ← List.map_reverse]
    rw [take_map_snd ((ids.filter fun i => decide (i.1 < a)).reverse) 10]
    rw [List.map_reverse]

/-- C7 witness: on the concrete three-position store with ids 1, 2, 3, an
ascending scan after id 2 skips ids 1 and 2 and a limit of 101 clamps to
a page of (up to) 100. -/
theorem read_positions_pagination_witness :
    read_positions ([((1 : ℕ), longPosition), (2, zeroSizePosition),
        (3, longPosition)].map (fun i => (u64ToBe i.1, i.2))) (some 2) none
        (some OrderBy.Ascending)
      = (([((1 : ℕ), longPosition), (2, zeroSizePosition),
          (3, longPosition)].filter (fun i => decide (2 < i.1))).map Prod.snd).take 10 ∧
    read_positions ([((1 : ℕ), longPosition), (2, zeroSizePosition),
        (3, longPosition)].map (fun i => (u64ToBe i.1, i.2))) none (some 101)
        (some OrderBy.Ascending)
      = ([((1 : ℕ), longPosition), (2, zeroSizePosition),
          (3, longPosition)].map Prod.snd).take 100 := by
  have h := read_positions_pagination
    [((1 : ℕ), longPosition), (2, zeroSizePosition), (3, longPosition)] 2 101
    (by decide) (by norm_num) (by norm_num)
  exact ⟨h.2.2.2.1, h.2.1⟩

end Perp
